import Mathlib

/-!
A shallow embedding of the HTTP request-dispatch engine of this repository
(`src/Server/index.js`) and of its configuration store (`src/Config/index.js`),
together with theorems settling the specification claims about them.

External collaborators (the `Response` object, middleware chains, the route
resolver, the bound exception handler, the handler method itself) are modelled
as explicit state or as oracle functions passed to the dispatcher; everything
the dispatcher itself does is translated from the source.
-/

namespace Adonis

/-- A JavaScript error value as the dispatcher observes it: constructor name,
message, the optional numeric `status`, the optional string `code`, and the
call-stack text. -/
structure JsError where
  name : String
  message : String
  status : Option Nat
  code : Option String
  stack : String
deriving DecidableEq

/-- `new GE.HttpException(message, status, code)`. -/
def httpException (message : String) (status : Nat) (code : String) : JsError :=
  { name := "HttpException", message := message, status := some status,
    code := some code, stack := "HttpException: " ++ message }

/-- `GE.RuntimeException.invoke(message)` (a 500-status runtime exception). -/
def runtimeException (message : String) : JsError :=
  { name := "RuntimeException", message := message, status := some 500,
    code := none, stack := "RuntimeException: " ++ message }

/-- The `TypeError` raised by `this._proxy.web(...)` when `this._proxy` is
`null` (the constructor set it to `null` because `HTTP_PROXY_ENABLED` is not
`"true"`). -/
def typeErrorNullProxy : JsError :=
  { name := "TypeError", message := "Cannot read properties of null (reading 'web')",
    status := none, code := none,
    stack := "TypeError: Cannot read properties of null (reading 'web')" }

/-- The `TypeError` raised by `group.portScale` when
`Config.get('app.cluster.groups.' + group)` returned `undefined`. -/
def typeErrorPortScale : JsError :=
  { name := "TypeError", message := "Cannot read properties of undefined (reading 'portScale')",
    status := none, code := none,
    stack := "TypeError: Cannot read properties of undefined (reading 'portScale')" }

/-- The `TypeError` raised by evaluating `ctx.timeout.signal` in the timer
options of `_routeHandler` when `ctx.timeout` is `undefined` (no value on the
context and no `app.http.timeout` config entry). -/
def typeErrorSignal : JsError :=
  { name := "TypeError", message := "Cannot read properties of undefined (reading 'signal')",
    status := none, code := none,
    stack := "TypeError: Cannot read properties of undefined (reading 'signal')" }

/-- The response object attached to the request context (external collaborator,
from the HTTP foundation): a staged ("lazy") body with the method used to set
it, the tri-state pending flag, the `implicitEnd` mode, the staged status, and
the list of (status, body) frames actually flushed to the underlying stream.
`lazyContent = none` stands for both `undefined` and `null`. -/
structure Response where
  lazyContent : Option String
  lazyMethod : Option String
  status : Nat
  isPending : Bool
  implicitEnd : Bool
  written : List (Nat × String)
deriving DecidableEq

/-- JavaScript truthiness of `lazyBody.method` (a missing method or the empty
string are falsy). -/
def jsTruthyOptStr : Option String → Bool
  | none => false
  | some s => s ≠ ""

/-- `_madeSoftResponse(response)`:
`response.lazyBody.content !== undefined && response.lazyBody.content !== null
&& response.lazyBody.method`. -/
def madeSoftResponse (r : Response) : Bool :=
  r.lazyContent.isSome && jsTruthyOptStr r.lazyMethod

/-- `response.send(content)`: stage the body without closing the stream. -/
def sendR (r : Response) (c : String) : Response :=
  { r with lazyContent := some c, lazyMethod := some "send" }

/-- `response.status(n)`. -/
def statusR (r : Response) (n : Nat) : Response :=
  { r with status := n }

/-- `response.end()`: flush the staged status and body to the stream and leave
the pending state. -/
def endR (r : Response) : Response :=
  { r with isPending := false, written := r.written ++ [(r.status, r.lazyContent.getD "")] }

/-- `_endResponse(response)`:
`if (response.isPending && response.implicitEnd) { response.end() }`. -/
def endResponse (r : Response) : Response :=
  if r.isPending && r.implicitEnd then endR r else r

/-- `_safelySetResponse(response, content)`: send `content` only when no soft
response has been made yet and `content` is not `undefined`. -/
def safelySetResponse (r : Response) (content : Option String) : Response :=
  match content with
  | none => r
  | some c => if madeSoftResponse r then r else sendR r c

/-- `_evaluateResponse(response)`: if a soft response has been made and the
response is still pending, end it. -/
def evaluateResponse (r : Response) : Response :=
  if madeSoftResponse r && r.isPending then endResponse r else r

/-- The immutable route descriptor carried inside the object returned by
`Route.match` (accessed as `route.route` in the source). -/
structure RouteInfo where
  clusterGroup : Option String
  middlewareList : List String
  handler : String
deriving DecidableEq

/-- The full result of `Route.match(url, method, hostname)`:
`{params, subdomains, route}`. -/
structure MatchResult where
  params : List (String × String)
  subdomains : List String
  route : RouteInfo
deriving DecidableEq

/-- The ambient process state the dispatcher reads: `process.env.WORKER_TYPE`,
the result of `parseInt(process.env.HTTP_PORT)` (`none` stands for `NaN`), and
whether `process.env.HTTP_PROXY_ENABLED === "true"` (which decided in the
constructor whether `this._proxy` is a proxy server or `null`). -/
structure ServerEnv where
  workerType : Option String
  httpPort : Option Nat
  proxyEnabled : Bool
deriving DecidableEq

/-- The configuration reader as the dispatcher consumes it: the per-group
`portScale` under `app.cluster.groups.<name>` (`none` when the key is absent,
i.e. `Config.get` returns `undefined`), and `app.http.timeout`. -/
structure ServerConfig where
  clusterGroups : String → Option Nat
  appHttpTimeout : Option Nat

/-- The template-literal key fragment for the cluster group: an `undefined`
cluster group stringifies to `"undefined"`. -/
def groupKey : Option String → String
  | some g => g
  | none => "undefined"

/-- The port fragment of the proxy target:
`parseInt(process.env.HTTP_PORT) + group.portScale` (`NaN` when the port did
not parse). -/
def portString (httpPort : Option Nat) (portScale : Nat) : String
  := match httpPort with
     | some p => toString (p + portScale)
     | none => "NaN"

/-- The proxy target origin computed in `handle`:
`http://localhost:${parseInt(process.env.HTTP_PORT) + group.portScale}`. -/
def proxyTarget (httpPort : Option Nat) (portScale : Nat) : String :=
  "http://localhost:" ++ portString httpPort portScale

/-- The exception thrown by `_getRoute` when `Route.match` returns nothing. -/
def routeNotFound (method url : String) : JsError :=
  httpException ("Route not found " ++ method ++ " " ++ url) 404 "E_ROUTE_NOT_FOUND"

/-- Behaviour of the server-level middleware chain on this request (oracle for
the external `MiddlewareBase` composition): it either completes, possibly
having transformed the response, or rejects. -/
inductive MWOutcome where
  | ok (r : Response)
  | err (e : JsError) (r : Response)

/-- Behaviour of the global+named middleware chain on this request: every link
called `next` (so the appended final handler runs), some link short-circuited,
or a link rejected. -/
inductive RouteMWOutcome where
  | next (r : Response)
  | halt (r : Response)
  | err (e : JsError) (r : Response)

/-- Behaviour of the resolved controller method `method(ctx)`: at which instant
(in ms) its promise settles (`none` = never), and with which settlement. -/
structure HandlerBehavior where
  completesAt : Option Nat
  result : Except JsError (Option String)

deriving instance DecidableEq for Except

/-- Everything observable about one `_routeHandler` invocation: how it settled,
the raw race value (when the handler won with a resolution), the response
afterwards, whether the controller method was invoked, how many times
`ctx.abort` was signalled, whether the deadline timer was started, and whether
that timer was ever cancelled. -/
structure RaceReport where
  result : Except JsError Unit
  raceValue : Option (Option String)
  response : Response
  handlerInvoked : Bool
  abortCount : Nat
  timerStarted : Bool
  timerCanceled : Bool
deriving DecidableEq

/-- The typed timeout failure thrown when the deadline fires:
`new GE.HttpException('Request timed out after ' + d + ' ms', 500, 'E_SERVER_TIMEOUT')`. -/
def timeoutError (d : Nat) : JsError :=
  httpException ("Request timed out after " ++ toString d ++ " ms") 500 "E_SERVER_TIMEOUT"

/-- `_routeHandler(ctx, next, params)` translated denotationally.

The source:
* creates `ctx.abort = new AbortController()`;
* computes `ctx.timeout = ctx.timeout ?? Config.get('app.http.timeout')`;
* races `method(ctx)` against
  `setTimeout(ctx.timeout, undefined, { signal: ctx.timeout.signal })` followed
  by a throw of the typed timeout failure (with `ABORT_ERR` rejections
  suppressed), and calls `ctx.abort.abort()` in a `finally`;
* on a resolution, applies `_safelySetResponse` and awaits `next()`.

Two consequences of the source are made explicit here: evaluating
`ctx.timeout.signal` when `ctx.timeout` is `undefined` throws a `TypeError`
(after `method(ctx)` has already been invoked, because the race array is
evaluated left to right), and when `ctx.timeout` is a number that property
access yields `undefined`, so the timer is started with no abort signal and can
never be cancelled. A settled handler promise beats the timer callback of the
same instant. -/
def routeHandlerStep (cfg : ServerConfig) (ctxTimeout : Option Nat)
    (hb : HandlerBehavior) (r : Response) : RaceReport :=
  let effTimeout := ctxTimeout <|> cfg.appHttpTimeout
  match effTimeout with
  | none =>
    { result := .error typeErrorSignal, raceValue := none, response := r,
      handlerInvoked := true, abortCount := 0, timerStarted := false,
      timerCanceled := false }
  | some d =>
    let timerSignal : Option Unit := none
    let handlerWon :=
      match hb.completesAt with
      | some t => decide (t ≤ d)
      | none => false
    if handlerWon then
      match hb.result with
      | .ok v =>
        { result := .ok (), raceValue := some v, response := safelySetResponse r v,
          handlerInvoked := true, abortCount := 1, timerStarted := true,
          timerCanceled := timerSignal.isSome }
      | .error e =>
        { result := .error e, raceValue := none, response := r,
          handlerInvoked := true, abortCount := 1, timerStarted := true,
          timerCanceled := timerSignal.isSome }
    else
      { result := .error (timeoutError d), raceValue := none, response := r,
        handlerInvoked := true, abortCount := 1, timerStarted := true,
        timerCanceled := timerSignal.isSome }

/-- Observable calls made by the exception funnel. -/
inductive FunnelEvent where
  | reportCalled
  | handleCalled
  | fallbackWritten
deriving DecidableEq

/-- Resolution of the bound exception-handler unit (oracle for
`ioc.make(ioc.use(this._exceptionHandlerNamespace))`): resolution itself may
throw, the resolved unit may lack `handle`/`report`, or it exposes both, in
which case `report` and then `handle` may each throw, and a successful `handle`
affects the response. -/
inductive ExcHandlerRes where
  | makeThrows (e : JsError)
  | missing
  | ok (reportErr : Option JsError) (handleErr : Option JsError)
      (handleEffect : Response → Response)

/-- Result of `_handleException`: the response afterwards, the funnel calls
made, and the (status-tagged) error that was funnelled. -/
structure FunnelResult where
  response : Response
  events : List FunnelEvent
  err : JsError

/-- JavaScript `a || d` on an optional number (`undefined` and `0` are falsy). -/
def jsOrNat : Option Nat → Nat → Nat
  | some n, d => if n = 0 then d else n
  | none, d => d

/-- The raw diagnostic body written by the funnel's catch branch:
`error.name + ': ' + error.message + '\n' + error.stack`. -/
def diagBody (e : JsError) : String :=
  e.name ++ ": " ++ e.message ++ "\n" ++ e.stack

/-- `ctx.response.status(500).send(diagBody error)`. -/
def fallbackWrite (r : Response) (e : JsError) : Response :=
  sendR (statusR r 500) (diagBody e)

/-- The runtime exception thrown when the resolved handler lacks `handle` or
`report`. -/
def missingMethodsError (ns : String) : JsError :=
  runtimeException (ns ++ " class must have handle and report methods on it")

/-- `_handleException(error, ctx)` translated: tag the error status
(`error.status = error.status || 500`), resolve the bound handler, require
`handle` and `report`, invoke `report` then `handle`; any failure in that block
is caught and the raw diagnostic body is written with status 500; finally
`_endResponse(ctx.response)` runs unconditionally. -/
def handleException (ns : String) (e0 : JsError) (r : Response)
    (h : ExcHandlerRes) : FunnelResult :=
  let e := { e0 with status := some (jsOrNat e0.status 500) }
  let mid : Response × List FunnelEvent :=
    match h with
    | .makeThrows e2 => (fallbackWrite r e2, [.fallbackWritten])
    | .missing => (fallbackWrite r (missingMethodsError ns), [.fallbackWritten])
    | .ok (some e2) _ _ => (fallbackWrite r e2, [.reportCalled, .fallbackWritten])
    | .ok none (some e2) _ =>
        (fallbackWrite r e2, [.reportCalled, .handleCalled, .fallbackWritten])
    | .ok none none eff => (eff r, [.reportCalled, .handleCalled])
  { response := endResponse mid.1, events := mid.2, err := e }

/-- Observable steps of one `handle` invocation. -/
inductive DispatchEvent where
  | serverMWRun
  | routeMWRun
  | handlerInvoked
  | proxyForward (target : String)
  | funnelReport
  | funnelHandle
  | funnelFallback
deriving DecidableEq

/-- Funnel calls as dispatch events. -/
def liftFunnel : FunnelEvent → DispatchEvent
  | .reportCalled => .funnelReport
  | .handleCalled => .funnelHandle
  | .fallbackWritten => .funnelFallback

/-- How one `handle(req, res)` invocation terminates: the promise chain
completed (normally or through the funnel), the request was forwarded to a
sibling worker, or an exception escaped `handle` synchronously (before the
promise chain and its `.catch` existed). -/
inductive HandleOutcome where
  | completed
  | proxied (target : String)
  | syncThrow (e : JsError)
deriving DecidableEq

/-- Everything observable about one `handle` invocation. -/
structure HandleResult where
  outcome : HandleOutcome
  response : Response
  events : List DispatchEvent
  funneled : Option JsError
  abortCount : Nat
deriving DecidableEq

/-- `handle(req, res)` translated.

The source resolves the route with `_getRoute` synchronously (throwing a 404
`HttpException` out of `handle` when there is no match), then — still
synchronously, before the promise chain — forwards to a sibling worker when the
route's cluster group differs from `process.env.WORKER_TYPE`; otherwise it runs
the promise chain: server middleware, `_evaluateResponse` and the early return
when the response is no longer pending, a (then unreachable) second cluster
check, the global+named chain with `_routeHandler` appended, and a final
`_endResponse`; a rejection anywhere in the chain goes to `.catch` and
`_handleException`. -/
def handle (env : ServerEnv) (cfg : ServerConfig) (reqMethod reqUrl : String)
    (matchRes : Option MatchResult) (excNs : String)
    (serverMW : Response → MWOutcome) (routeMW : Response → RouteMWOutcome)
    (ctxTimeout : Option Nat) (hb : HandlerBehavior) (excH : ExcHandlerRes)
    (r0 : Response) : HandleResult :=
  match matchRes with
  | none =>
    { outcome := .syncThrow (routeNotFound reqMethod reqUrl), response := r0,
      events := [], funneled := none, abortCount := 0 }
  | some m =>
    if m.route.clusterGroup ≠ env.workerType then
      match cfg.clusterGroups (groupKey m.route.clusterGroup) with
      | none =>
        { outcome := .syncThrow typeErrorPortScale, response := r0,
          events := [], funneled := none, abortCount := 0 }
      | some portScale =>
        let target := proxyTarget env.httpPort portScale
        if env.proxyEnabled then
          { outcome := .proxied target, response := r0,
            events := [.proxyForward target], funneled := none, abortCount := 0 }
        else
          { outcome := .syncThrow typeErrorNullProxy, response := r0,
            events := [], funneled := none, abortCount := 0 }
    else
      match serverMW r0 with
      | .err e r1 =>
        let f := handleException excNs e r1 excH
        { outcome := .completed, response := f.response,
          events := .serverMWRun :: f.events.map liftFunnel,
          funneled := some f.err, abortCount := 0 }
      | .ok r1 =>
        let r2 := evaluateResponse r1
        if r2.isPending then
          if m.route.clusterGroup ≠ env.workerType then
            match cfg.clusterGroups (groupKey m.route.clusterGroup) with
            | none =>
              let f := handleException excNs typeErrorPortScale r2 excH
              { outcome := .completed, response := f.response,
                events := .serverMWRun :: f.events.map liftFunnel,
                funneled := some f.err, abortCount := 0 }
            | some portScale =>
              let target := proxyTarget env.httpPort portScale
              if env.proxyEnabled then
                { outcome := .proxied target, response := endResponse r2,
                  events := [.serverMWRun, .proxyForward target],
                  funneled := none, abortCount := 0 }
              else
                let f := handleException excNs typeErrorNullProxy r2 excH
                { outcome := .completed, response := f.response,
                  events := .serverMWRun :: f.events.map liftFunnel,
                  funneled := some f.err, abortCount := 0 }
          else
            match routeMW r2 with
            | .halt r3 =>
              { outcome := .completed, response := endResponse r3,
                events := [.serverMWRun, .routeMWRun], funneled := none,
                abortCount := 0 }
            | .err e r3 =>
              let f := handleException excNs e r3 excH
              { outcome := .completed, response := f.response,
                events := [.serverMWRun, .routeMWRun] ++ f.events.map liftFunnel,
                funneled := some f.err, abortCount := 0 }
            | .next r3 =>
              let rep := routeHandlerStep cfg ctxTimeout hb r3
              match rep.result with
              | .ok _ =>
                { outcome := .completed, response := endResponse rep.response,
                  events := [.serverMWRun, .routeMWRun, .handlerInvoked],
                  funneled := none, abortCount := rep.abortCount }
              | .error e =>
                let f := handleException excNs e rep.response excH
                { outcome := .completed, response := f.response,
                  events := [.serverMWRun, .routeMWRun, .handlerInvoked]
                    ++ f.events.map liftFunnel,
                  funneled := some f.err, abortCount := rep.abortCount }
        else
          { outcome := .completed, response := endResponse r2,
            events := [.serverMWRun], funneled := none, abortCount := 0 }

/-- JavaScript addresses of objects on the heap. -/
abbrev Addr := Nat

/-- A JavaScript value as stored in the configuration store: a primitive, or a
reference to a heap object. -/
inductive JVal where
  | undefV
  | num (n : Int)
  | str (s : String)
  | boolV (b : Bool)
  | ref (a : Addr)
deriving DecidableEq

/-- An object's own enumerable fields, in order. -/
abbrev ObjFields := List (String × JVal)

/-- The object heap: live objects keyed by address, plus the next fresh
address. -/
structure Heap where
  objs : List (Addr × ObjFields)
  next : Addr
deriving DecidableEq

/-- First entry for an address. -/
def lookupObj : List (Addr × ObjFields) → Addr → Option ObjFields
  | [], _ => none
  | e :: rest, a => if e.1 = a then some e.2 else lookupObj rest a

/-- Reading a field of an object (`undefined` when absent). -/
def getField : ObjFields → String → JVal
  | [], _ => .undefV
  | kv :: rest, k => if kv.1 = k then kv.2 else getField rest k

/-- Assigning a field of an object (replace in place, else append). -/
def setFields : ObjFields → String → JVal → ObjFields
  | [], k, v => [(k, v)]
  | kv :: rest, k, v => if kv.1 = k then (k, v) :: rest else kv :: setFields rest k v

def Heap.find (h : Heap) (a : Addr) : Option ObjFields :=
  lookupObj h.objs a

/-- Entries after a field assignment on the object at `a`. -/
def setEntries : List (Addr × ObjFields) → Addr → String → JVal → List (Addr × ObjFields)
  | [], _, _, _ => []
  | e :: rest, a, k, v =>
    if e.1 = a then (a, setFields e.2 k v) :: setEntries rest a k v
    else e :: setEntries rest a k v

/-- The JavaScript field assignment `obj.k = v` on the object at address `a`. -/
def Heap.setField (h : Heap) (a : Addr) (k : String) (v : JVal) : Heap :=
  { h with objs := setEntries h.objs a k v }

/-- Allocating a fresh object with the given fields. -/
def allocHeap (h : Heap) (flds : ObjFields) : Heap :=
  { objs := (h.next, flds) :: h.objs, next := h.next + 1 }

/-- Reading `obj.k` through an address. -/
def getF (h : Heap) (a : Addr) (k : String) : JVal :=
  match h.find a with
  | some flds => getField flds k
  | none => .undefV

/-- Lodash `_.get(root, path)`: walk the dotted path through object
references; any step through a non-object yields `undefined`. -/
def pathGet (h : Heap) (a : Addr) : List String → JVal
  | [] => .undefV
  | k :: rest =>
    match rest with
    | [] => getF h a k
    | _ :: _ =>
      match getF h a k with
      | .ref b => pathGet h b rest
      | _ => .undefV

/-- Lodash `_.set(root, path, v)`: walk the dotted path, creating fresh empty
objects where an intermediate step is not an object, and assign the final
field. -/
def pathSet (h : Heap) (a : Addr) : List String → JVal → Heap
  | [], _ => h
  | k :: rest, v =>
    match rest with
    | [] => h.setField a k v
    | _ :: _ =>
      match getF h a k with
      | .ref b => pathSet h b rest v
      | _ => pathSet ((allocHeap h []).setField a k (.ref h.next)) h.next rest v

/-- Lodash `_.clone(v)`: a shallow clone — primitives are returned as they
are, an object is copied into a fresh container whose fields (including the
references they hold) are the original's. -/
def cloneVal (h : Heap) (v : JVal) : Heap × JVal :=
  match v with
  | .ref a => (allocHeap h ((h.find a).getD []), .ref h.next)
  | _ => (h, v)

/-- The visited (non-owner) addresses, the address owning the final field, and
the final field name of a fully resolving `_.get`/`_.set` walk; `none` when
some intermediate step is not a reference to a live object. -/
def walkOwner (h : Heap) (a : Addr) : List String → Option (List Addr × Addr × String)
  | [] => none
  | k :: rest =>
    match rest with
    | [] => if (h.find a).isSome then some ([], a, k) else none
    | _ :: _ =>
      match getF h a k with
      | .ref b => (walkOwner h b rest).map (fun x => (a :: x.1, x.2))
      | _ => none

/-- Is a value free of references at or above `n`? -/
def valBound (n : Addr) : JVal → Bool
  | .ref b => decide (b < n)
  | _ => true

/-- Does a value's reference (if any) point to a live object? -/
def valLive (objs : List (Addr × ObjFields)) : JVal → Bool
  | .ref b => (lookupObj objs b).isSome
  | _ => true

/-- Heap sanity: every object lives below `next` and every field reference is
bounded and live. -/
def heapWF (h : Heap) : Bool :=
  h.objs.all (fun e =>
    decide (e.1 < h.next) &&
    e.2.all (fun kv => valBound h.next kv.2 && valLive h.objs kv.2))

/-- The in-memory configuration store of `src/Config/index.js`: the heap and
the address of `this._config`. -/
structure ConfigStore where
  heap : Heap
  root : Addr
deriving DecidableEq

/-- `Config.get(key, defaultValue)`:
`_.clone(_.get(this._config, key, defaultValue))`. The clone may allocate, so
the store is returned along with the value. -/
def ConfigStore.get (c : ConfigStore) (key : List String) (dflt : JVal) :
    JVal × ConfigStore :=
  let raw := pathGet c.heap c.root key
  let v := if raw = .undefV then dflt else raw
  let p := cloneVal c.heap v
  (p.2, { c with heap := p.1 })

/-- `Config.set(key, value)`: read the old value through `this.get(key)` (for
the emitted event) and then `_.set(this._config, key, value)`. The event
emission itself is external. -/
def ConfigStore.set (c : ConfigStore) (key : List String) (v : JVal) : ConfigStore :=
  let c1 := (c.get key .undefV).2
  { c1 with heap := pathSet c1.heap c1.root key v }

/-! Fixtures (concrete instances used by witnesses and counterexamples) and
spec-side checkers. -/

/-- A fresh response: nothing staged, pending, implicit end on. -/
def pendingResponse : Response := ⟨none, none, 200, true, true, []⟩

/-- A pending response whose handler opted out of implicit end. -/
def explicitEndOff : Response := ⟨none, none, 200, true, false, []⟩

/-- A response whose stream has already been closed. -/
def endedResponse : Response := ⟨some "x", some "send", 200, false, true, [(200, "x")]⟩

/-- An empty cluster-group configuration. -/
def noGroups : String → Option Nat := fun _ => none

/-- A plain error with no status of its own. -/
def plainError : JsError :=
  { name := "Error", message := "boom", status := none, code := none, stack := "Error: boom" }

/-- A matched route tagged with cluster group `web`. -/
def webRoute : MatchResult :=
  ⟨[("id", "42")], [], ⟨some "web", [], "UserController.show"⟩⟩

/-- Does `reportCalled` come before any `handleCalled` in a funnel trace? -/
def reportBeforeHandle : List FunnelEvent → Bool
  | [] => true
  | .handleCalled :: _ => false
  | .reportCalled :: _ => true
  | .fallbackWritten :: rest => reportBeforeHandle rest

/-- Is this value an object reference? -/
def JVal.isRef : JVal → Bool
  | .ref _ => true
  | _ => false

/-- A configuration store `{a: {b: {x: 1}}}` over three heap objects. -/
def configFixture : ConfigStore :=
  ⟨⟨[(0, [("a", .ref 1)]), (1, [("b", .ref 2)]), (2, [("x", .num 1)])], 3⟩, 0⟩

/-! Helper lemmas about the response state machine. -/

/-- After the finalization step, a response can be pending only when implicit
end is off. -/
theorem endResponse_closed (r : Response) :
    ((endResponse r).isPending && (endResponse r).implicitEnd) = false := by
  cases h1 : r.isPending <;> cases h2 : r.implicitEnd <;>
    simp [endResponse, endR, h1, h2]

/-- The finalization step never changes the staged status. -/
theorem endResponse_status (r : Response) : (endResponse r).status = r.status := by
  unfold endResponse endR
  split <;> rfl

/-- The finalization step never changes the staged body. -/
theorem endResponse_lazyContent (r : Response) :
    (endResponse r).lazyContent = r.lazyContent := by
  unfold endResponse endR
  split <;> rfl

/-! Claim theorems. -/

/-- C1: the claim says a request with no matching route raises `RouteNotFound`
and the response is finalized with status 404, never left pending. On the code,
`_getRoute` does throw the 404 `HttpException`, but it throws synchronously
before the promise chain whose `.catch` would funnel it, so `handle` lets the
exception escape, the exception funnel never runs, nothing is written, and the
response stays pending. This theorem evaluates the dispatcher at such a
request. -/
theorem c1_route_not_found_left_pending :
    handle ⟨some "web", some 8000, true⟩ ⟨noGroups, none⟩ "GET" "/missing" none
        "App/Exceptions/Handler" (fun r => .ok r) (fun r => .next r) none
        ⟨some 0, .ok none⟩ (.ok none none id) pendingResponse
      = ⟨.syncThrow (routeNotFound "GET" "/missing"), pendingResponse, [], none, 0⟩
    ∧ (routeNotFound "GET" "/missing").status = some 404
    ∧ (routeNotFound "GET" "/missing").code = some "E_ROUTE_NOT_FOUND"
    ∧ pendingResponse.isPending = true := by
  decide

/-- C2 counterexample: with proxying disabled and a cluster-group mismatch the
dispatcher does not "proceed and serve the request locally": it takes the proxy
branch, dereferences the `null` proxy transport, and throws before any
middleware or handler runs. -/
theorem c2_counterexample :
    handle ⟨some "utility", some 8000, false⟩
        ⟨fun g => if g = "web" then some 10 else none, none⟩ "GET" "/users/42"
        (some webRoute) "App/Exceptions/Handler" (fun r => .ok r) (fun r => .next r)
        none ⟨some 0, .ok none⟩ (.ok none none id) pendingResponse
      = ⟨.syncThrow typeErrorNullProxy, pendingResponse, [], none, 0⟩ := by
  decide

/-- C2 (amended): for every request whose resolved route's cluster group
differs from the current worker while proxying is globally disabled, the
dispatcher does not serve the request locally — it still enters the proxy
branch and throws a `TypeError` (from the absent proxy transport, or from the
absent group configuration) before any middleware executes, leaving the
response untouched. -/
theorem c2_amended (env : ServerEnv) (cfg : ServerConfig) (rm ru : String)
    (m : MatchResult) (excNs : String) (serverMW : Response → MWOutcome)
    (routeMW : Response → RouteMWOutcome) (ct : Option Nat) (hb : HandlerBehavior)
    (excH : ExcHandlerRes) (r0 : Response)
    (hmis : m.route.clusterGroup ≠ env.workerType)
    (hoff : env.proxyEnabled = false) :
    (handle env cfg rm ru (some m) excNs serverMW routeMW ct hb excH r0).events = []
    ∧ (handle env cfg rm ru (some m) excNs serverMW routeMW ct hb excH r0).response = r0
    ∧ (handle env cfg rm ru (some m) excNs serverMW routeMW ct hb excH r0).funneled = none
    ∧ ∃ e, (handle env cfg rm ru (some m) excNs serverMW routeMW ct hb excH r0).outcome
        = .syncThrow e ∧ e.name = "TypeError" := by
  cases hg : cfg.clusterGroups (groupKey m.route.clusterGroup) with
  | none =>
    refine ⟨?_, ?_, ?_, typeErrorPortScale, ?_, rfl⟩ <;>
      simp [handle, hmis, hg, typeErrorPortScale]
  | some ps =>
    refine ⟨?_, ?_, ?_, typeErrorNullProxy, ?_, rfl⟩ <;>
      simp [handle, hmis, hg, hoff, typeErrorNullProxy]

/-- C2 amended witness: the amended statement at the concrete mismatching
request with proxying disabled. -/
theorem c2_amended_witness :
    (handle ⟨some "utility", some 8000, false⟩ ⟨noGroups, none⟩ "GET" "/users/42"
        (some webRoute) "App/Exceptions/Handler" (fun r => .ok r) (fun r => .next r)
        none ⟨some 0, .ok none⟩ (.ok none none id) pendingResponse).events = []
    ∧ (handle ⟨some "utility", some 8000, false⟩ ⟨noGroups, none⟩ "GET" "/users/42"
        (some webRoute) "App/Exceptions/Handler" (fun r => .ok r) (fun r => .next r)
        none ⟨some 0, .ok none⟩ (.ok none none id) pendingResponse).response
      = pendingResponse
    ∧ (handle ⟨some "utility", some 8000, false⟩ ⟨noGroups, none⟩ "GET" "/users/42"
        (some webRoute) "App/Exceptions/Handler" (fun r => .ok r) (fun r => .next r)
        none ⟨some 0, .ok none⟩ (.ok none none id) pendingResponse).funneled = none
    ∧ ∃ e, (handle ⟨some "utility", some 8000, false⟩ ⟨noGroups, none⟩ "GET" "/users/42"
        (some webRoute) "App/Exceptions/Handler" (fun r => .ok r) (fun r => .next r)
        none ⟨some 0, .ok none⟩ (.ok none none id) pendingResponse).outcome
      = .syncThrow e ∧ e.name = "TypeError" :=
  c2_amended ⟨some "utility", some 8000, false⟩ ⟨noGroups, none⟩ "GET" "/users/42"
    webRoute "App/Exceptions/Handler" (fun r => .ok r) (fun r => .next r)
    none ⟨some 0, .ok none⟩ (.ok none none id) pendingResponse (by decide) rfl

/-- C3 counterexample: with a configured timeout of zero the race is not
skipped and a `RequestTimeout` failure is possible — the deadline fires at once
and a handler settling at 5 ms is reported as `E_SERVER_TIMEOUT`. -/
theorem c3_counterexample :
    (routeHandlerStep ⟨noGroups, some 0⟩ none ⟨some 5, .ok none⟩ pendingResponse).result
      = .error (timeoutError 0)
    ∧ (timeoutError 0).code = some "E_SERVER_TIMEOUT"
    ∧ (routeHandlerStep ⟨noGroups, some 0⟩ none ⟨some 5, .ok none⟩ pendingResponse).timerStarted
      = true := by
  decide

/-- C3 (amended): a zero or unset timeout does not disable the guard and the
race is never skipped. With an unset timeout (no context value and no config
default) evaluating `ctx.timeout.signal` throws a `TypeError` after the handler
has already been invoked, failing the invocation; with a timeout of zero the
deadline timer is armed and any handler that does not settle in the same
instant is reported as a `RequestTimeout`. -/
theorem c3_amended (cfg : ServerConfig) (ct : Option Nat) (hb : HandlerBehavior)
    (r : Response) :
    ((ct <|> cfg.appHttpTimeout) = none →
      (routeHandlerStep cfg ct hb r).result = .error typeErrorSignal
      ∧ (routeHandlerStep cfg ct hb r).handlerInvoked = true
      ∧ (routeHandlerStep cfg ct hb r).timerStarted = false)
    ∧ ((ct <|> cfg.appHttpTimeout) = some 0 →
      (∀ t, hb.completesAt = some t → 0 < t →
        (routeHandlerStep cfg ct hb r).result = .error (timeoutError 0))
      ∧ (hb.completesAt = none →
        (routeHandlerStep cfg ct hb r).result = .error (timeoutError 0))) := by
  constructor
  · intro h
    simp [routeHandlerStep, h]
  · intro h
    constructor
    · intro t ht hpos
      have hnle : ¬ (t ≤ 0) := by omega
      simp [routeHandlerStep, h, ht, hnle]
    · intro hnone
      simp [routeHandlerStep, h, hnone]

/-- C3 amended witness: the amended statement at an unset timeout and at a zero
timeout. -/
theorem c3_amended_witness :
    (routeHandlerStep ⟨noGroups, none⟩ none ⟨some 1, .ok none⟩ pendingResponse).result
      = .error typeErrorSignal
    ∧ (routeHandlerStep ⟨noGroups, some 0⟩ none ⟨some 5, .ok none⟩ pendingResponse).result
      = .error (timeoutError 0) :=
  ⟨((c3_amended ⟨noGroups, none⟩ none ⟨some 1, .ok none⟩ pendingResponse).1 rfl).1,
   ((c3_amended ⟨noGroups, some 0⟩ none ⟨some 5, .ok none⟩ pendingResponse).2 rfl).1
     5 rfl (by decide)⟩

/-- C4: the claim says that when the handler settles before the deadline its
result is returned, no `RequestTimeout` is raised, and the deadline timer is
canceled so that no dangling timer remains. On the code the first two parts
hold, but the timer's cancel option is wired to `ctx.timeout.signal` — a
property of the numeric timeout, which is `undefined` — instead of
`ctx.abort.signal`, so the timer is never canceled: this theorem evaluates the
guard at a handler settling at 1 ms under a 100 ms timeout and observes the
handler result returned, the abort token signalled by the `finally`, and the
started timer left uncancelled. -/
theorem c4_timer_never_canceled :
    (routeHandlerStep ⟨noGroups, some 100⟩ none ⟨some 1, .ok (some "done")⟩
        pendingResponse).result = .ok ()
    ∧ (routeHandlerStep ⟨noGroups, some 100⟩ none ⟨some 1, .ok (some "done")⟩
        pendingResponse).raceValue = some (some "done")
    ∧ (routeHandlerStep ⟨noGroups, some 100⟩ none ⟨some 1, .ok (some "done")⟩
        pendingResponse).response = sendR pendingResponse "done"
    ∧ (routeHandlerStep ⟨noGroups, some 100⟩ none ⟨some 1, .ok (some "done")⟩
        pendingResponse).timerStarted = true
    ∧ (routeHandlerStep ⟨noGroups, some 100⟩ none ⟨some 1, .ok (some "done")⟩
        pendingResponse).timerCanceled = false
    ∧ (routeHandlerStep ⟨noGroups, some 100⟩ none ⟨some 1, .ok (some "done")⟩
        pendingResponse).abortCount = 1 := by
  decide



/-- C5: for every request whose handler exceeds a positive configured timeout,
the cancellation token is signalled exactly once and the typed
`E_SERVER_TIMEOUT` failure (status 500, message carrying the configured
duration) is the error funnelled through `_handleException`. -/
theorem c5_timeout_reaches_funnel (env : ServerEnv) (cfg : ServerConfig)
    (rm ru : String) (m : MatchResult) (excNs : String)
    (serverMW : Response → MWOutcome) (routeMW : Response → RouteMWOutcome)
    (ct : Option Nat) (hb : HandlerBehavior) (excH : ExcHandlerRes)
    (r0 r1 r3 : Response) (d : Nat)
    (hgrp : m.route.clusterGroup = env.workerType)
    (hsm : serverMW r0 = .ok r1)
    (hpend : (evaluateResponse r1).isPending = true)
    (hrm : routeMW (evaluateResponse r1) = .next r3)
    (hto : (ct <|> cfg.appHttpTimeout) = some d)
    (_hpos : 0 < d)
    (hslow : hb.completesAt = none ∨ ∃ t, hb.completesAt = some t ∧ d < t) :
    (handle env cfg rm ru (some m) excNs serverMW routeMW ct hb excH r0).abortCount = 1
    ∧ (handle env cfg rm ru (some m) excNs serverMW routeMW ct hb excH r0).funneled
      = some (timeoutError d)
    ∧ (timeoutError d).status = some 500
    ∧ (timeoutError d).code = some "E_SERVER_TIMEOUT"
    ∧ (timeoutError d).message = "Request timed out after " ++ toString d ++ " ms" := by
  have hrep : routeHandlerStep cfg ct hb r3
      = ⟨.error (timeoutError d), none, r3, true, 1, true, false⟩ := by
    rcases hslow with hn | ⟨t, ht, hlt⟩
    · simp [routeHandlerStep, hto, hn]
    · have hnle : ¬ (t ≤ d) := by omega
      simp [routeHandlerStep, hto, ht, hnle]
  refine ⟨?_, ?_, rfl, rfl, rfl⟩ <;>
    simp [handle, hgrp, hsm, hpend, hrm, hrep, handleException, jsOrNat,
      timeoutError, httpException]

/-- C5 witness: a never-settling handler under a 10 ms config timeout on a
matching worker. -/
theorem c5_witness :
    (handle ⟨some "web", some 8000, false⟩ ⟨noGroups, some 10⟩ "GET" "/users/42"
        (some webRoute) "App/Exceptions/Handler" (fun r => .ok r) (fun r => .next r)
        none ⟨none, .ok none⟩ (.ok none none id) pendingResponse).abortCount = 1
    ∧ (handle ⟨some "web", some 8000, false⟩ ⟨noGroups, some 10⟩ "GET" "/users/42"
        (some webRoute) "App/Exceptions/Handler" (fun r => .ok r) (fun r => .next r)
        none ⟨none, .ok none⟩ (.ok none none id) pendingResponse).funneled
      = some (timeoutError 10)
    ∧ (timeoutError 10).status = some 500
    ∧ (timeoutError 10).code = some "E_SERVER_TIMEOUT"
    ∧ (timeoutError 10).message = "Request timed out after " ++ toString 10 ++ " ms" :=
  c5_timeout_reaches_funnel ⟨some "web", some 8000, false⟩ ⟨noGroups, some 10⟩
    "GET" "/users/42" webRoute "App/Exceptions/Handler" (fun r => .ok r)
    (fun r => .next r) none ⟨none, .ok none⟩ (.ok none none id) pendingResponse
    pendingResponse (evaluateResponse pendingResponse) 10 rfl rfl (by decide) rfl rfl
    (by decide) (.inl rfl)

/-- C6: when the server-level middleware chain ends the response (and did so
with exactly one stream close), the dispatcher runs no route middleware and no
handler, funnels nothing, and returns the response exactly as the middleware
left it — the middleware's body is final and no further close occurs. -/
theorem c6_server_middleware_short_circuit (env : ServerEnv) (cfg : ServerConfig)
    (rm ru : String) (m : MatchResult) (excNs : String)
    (serverMW : Response → MWOutcome) (routeMW : Response → RouteMWOutcome)
    (ct : Option Nat) (hb : HandlerBehavior) (excH : ExcHandlerRes)
    (r0 r1 : Response) (w : Nat × String)
    (hgrp : m.route.clusterGroup = env.workerType)
    (hsm : serverMW r0 = .ok r1)
    (hend : r1.isPending = false)
    (honce : r1.written = r0.written ++ [w]) :
    handle env cfg rm ru (some m) excNs serverMW routeMW ct hb excH r0
      = ⟨.completed, r1, [.serverMWRun], none, 0⟩
    ∧ (handle env cfg rm ru (some m) excNs serverMW routeMW ct hb excH r0).response.written
      = r0.written ++ [w] := by
  have hev : evaluateResponse r1 = r1 := by
    simp [evaluateResponse, hend]
  have hen : endResponse r1 = r1 := by
    simp [endResponse, hend]
  constructor
  · simp [handle, hgrp, hsm, hev, hend, hen]
  · simp [handle, hgrp, hsm, hev, hend, hen, honce]

/-- C6 witness: a server middleware that stages the body `cached` and ends the
stream; the dispatcher leaves the response exactly as staged. -/
theorem c6_witness :
    handle ⟨some "web", some 8000, false⟩ ⟨noGroups, none⟩ "GET" "/users/42"
        (some webRoute) "App/Exceptions/Handler"
        (fun r => .ok (endR (sendR r "cached"))) (fun r => .next r)
        none ⟨some 0, .ok none⟩ (.ok none none id) pendingResponse
      = ⟨.completed, endR (sendR pendingResponse "cached"), [.serverMWRun], none, 0⟩
    ∧ (handle ⟨some "web", some 8000, false⟩ ⟨noGroups, none⟩ "GET" "/users/42"
        (some webRoute) "App/Exceptions/Handler"
        (fun r => .ok (endR (sendR r "cached"))) (fun r => .next r)
        none ⟨some 0, .ok none⟩ (.ok none none id) pendingResponse).response.written
      = pendingResponse.written ++ [(200, "cached")] :=
  c6_server_middleware_short_circuit ⟨some "web", some 8000, false⟩ ⟨noGroups, none⟩
    "GET" "/users/42" webRoute "App/Exceptions/Handler"
    (fun r => .ok (endR (sendR r "cached"))) (fun r => .next r)
    none ⟨some 0, .ok none⟩ (.ok none none id) pendingResponse
    (endR (sendR pendingResponse "cached")) (200, "cached") rfl rfl (by decide) (by decide)

/-- C7: for every funnelled failure, a missing status is replaced by 500;
`report` is invoked before `handle`; when the resolved handler lacks the two
operations, when resolution throws, or when `report` or `handle` itself
throws, the raw diagnostic body (error name, message and call-stack text) is
written with status 500; and the finalization step always runs afterwards, so
the response can remain pending only if it opted out of implicit end. -/
theorem c7_exception_funnel (ns : String) (e0 : JsError) (r0 : Response)
    (h : ExcHandlerRes) :
    (e0.status = none → (handleException ns e0 r0 h).err.status = some 500)
    ∧ reportBeforeHandle (handleException ns e0 r0 h).events = true
    ∧ (∀ eff, h = .ok none none eff →
        (handleException ns e0 r0 h).events = [.reportCalled, .handleCalled])
    ∧ (h = .missing →
        (handleException ns e0 r0 h).response.status = 500
        ∧ (handleException ns e0 r0 h).response.lazyContent
          = some (diagBody (missingMethodsError ns)))
    ∧ (∀ e2, h = .makeThrows e2 →
        (handleException ns e0 r0 h).response.status = 500
        ∧ (handleException ns e0 r0 h).response.lazyContent = some (diagBody e2))
    ∧ (∀ e2 he eff, h = .ok (some e2) he eff →
        (handleException ns e0 r0 h).response.status = 500
        ∧ (handleException ns e0 r0 h).response.lazyContent = some (diagBody e2)
        ∧ (handleException ns e0 r0 h).events = [.reportCalled, .fallbackWritten])
    ∧ (∀ e2 eff, h = .ok none (some e2) eff →
        (handleException ns e0 r0 h).response.status = 500
        ∧ (handleException ns e0 r0 h).response.lazyContent = some (diagBody e2)
        ∧ (handleException ns e0 r0 h).events
          = [.reportCalled, .handleCalled, .fallbackWritten])
    ∧ ((handleException ns e0 r0 h).response.isPending
        && (handleException ns e0 r0 h).response.implicitEnd) = false := by
  refine ⟨?_, ?_, ?_, ?_, ?_, ?_, ?_, ?_⟩
  · intro hs
    simp [handleException, jsOrNat, hs]
  · cases h with
    | ok a b eff =>
      cases a <;> cases b <;> simp [handleException, reportBeforeHandle]
    | makeThrows e2 => simp [handleException, reportBeforeHandle]
    | missing => simp [handleException, reportBeforeHandle]
  · intro eff heq
    subst heq
    simp [handleException]
  · intro heq
    subst heq
    simp [handleException, endResponse_status, endResponse_lazyContent,
      fallbackWrite, statusR, sendR]
  · intro e2 heq
    subst heq
    simp [handleException, endResponse_status, endResponse_lazyContent,
      fallbackWrite, statusR, sendR]
  · intro e2 he eff heq
    subst heq
    simp [handleException, endResponse_status, endResponse_lazyContent,
      fallbackWrite, statusR, sendR]
  · intro e2 eff heq
    subst heq
    simp [handleException, endResponse_status, endResponse_lazyContent,
      fallbackWrite, statusR, sendR]
  · cases h with
    | ok a b eff =>
      cases a with
      | some e2 => exact endResponse_closed _
      | none =>
        cases b with
        | some e2 => exact endResponse_closed _
        | none => exact endResponse_closed _
    | makeThrows e2 => exact endResponse_closed _
    | missing => exact endResponse_closed _

/-- C7 witness: a plain error with no status funnelled through a working
handler (report then handle, status tagged 500), and through a handler lacking
the two methods (diagnostic fallback). -/
theorem c7_witness :
    (handleException "App/Exceptions/Handler" plainError pendingResponse
        (.ok none none id)).err.status = some 500
    ∧ (handleException "App/Exceptions/Handler" plainError pendingResponse
        (.ok none none id)).events = [.reportCalled, .handleCalled]
    ∧ (handleException "App/Exceptions/Handler" plainError pendingResponse
        .missing).response.status = 500
    ∧ (handleException "App/Exceptions/Handler" plainError pendingResponse
        .missing).response.lazyContent
      = some (diagBody (missingMethodsError "App/Exceptions/Handler")) :=
  ⟨(c7_exception_funnel "App/Exceptions/Handler" plainError pendingResponse
      (.ok none none id)).1 rfl,
   (c7_exception_funnel "App/Exceptions/Handler" plainError pendingResponse
      (.ok none none id)).2.2.1 id rfl,
   ((c7_exception_funnel "App/Exceptions/Handler" plainError pendingResponse
      .missing).2.2.2.1 rfl).1,
   ((c7_exception_funnel "App/Exceptions/Handler" plainError pendingResponse
      .missing).2.2.2.1 rfl).2⟩

/-- C8: for every request whose route's cluster group differs from the worker
identity, with proxying enabled, a configured group offset and a parsed base
port, the dispatcher forwards exactly once to
`http://localhost:<base + offset>` and performs no local middleware or handler
execution, leaving the response untouched. -/
theorem c8_proxy_forward_target (env : ServerEnv) (cfg : ServerConfig)
    (rm ru : String) (m : MatchResult) (excNs : String)
    (serverMW : Response → MWOutcome) (routeMW : Response → RouteMWOutcome)
    (ct : Option Nat) (hb : HandlerBehavior) (excH : ExcHandlerRes)
    (r0 : Response) (g : String) (scale port : Nat)
    (hg : m.route.clusterGroup = some g)
    (hmis : some g ≠ env.workerType)
    (hon : env.proxyEnabled = true)
    (hcfg : cfg.clusterGroups g = some scale)
    (hport : env.httpPort = some port) :
    handle env cfg rm ru (some m) excNs serverMW routeMW ct hb excH r0
      = ⟨.proxied ("http://localhost:" ++ toString (port + scale)), r0,
         [.proxyForward ("http://localhost:" ++ toString (port + scale))], none, 0⟩ := by
  simp [handle, hg, hmis, groupKey, hcfg, hon, proxyTarget, portString, hport]

/-- C8 witness: group `web` at offset 10 over base port 8000 on the `utility`
worker forwards to `http://localhost:8010`. -/
theorem c8_witness :
    handle ⟨some "utility", some 8000, true⟩
        ⟨fun g => if g = "web" then some 10 else none, none⟩ "GET" "/users/42"
        (some webRoute) "App/Exceptions/Handler" (fun r => .ok r) (fun r => .next r)
        none ⟨some 0, .ok none⟩ (.ok none none id) pendingResponse
      = ⟨.proxied ("http://localhost:" ++ toString (8000 + 10)), pendingResponse,
         [.proxyForward ("http://localhost:" ++ toString (8000 + 10))], none, 0⟩
    ∧ "http://localhost:" ++ toString (8000 + 10) = "http://localhost:8010" :=
  ⟨c8_proxy_forward_target ⟨some "utility", some 8000, true⟩
      ⟨fun g => if g = "web" then some 10 else none, none⟩ "GET" "/users/42"
      webRoute "App/Exceptions/Handler" (fun r => .ok r) (fun r => .next r)
      none ⟨some 0, .ok none⟩ (.ok none none id) pendingResponse
      "web" 10 8000 rfl (by decide) rfl (by decide) rfl,
   by decide⟩

/-- C9 counterexample: a pending response that opted out of implicit end is not
closed by the finalization step — the claim's "for a response in the pending
state it closes the stream" fails. -/
theorem c9_counterexample :
    explicitEndOff.isPending = true
    ∧ endResponse explicitEndOff = explicitEndOff
    ∧ (endResponse explicitEndOff).written = explicitEndOff.written := by
  decide

/-- C9 (amended): the finalization step is idempotent on ended responses (a
no-op, twice); on a pending response it closes the stream — with exactly one
close frame — provided the response's implicit-end mode is on; when implicit
end is off it leaves even a pending response untouched. -/
theorem c9_amended_finalization (r : Response) :
    (r.isPending = false → endResponse r = r ∧ endResponse (endResponse r) = r)
    ∧ (r.isPending = true → r.implicitEnd = true →
        (endResponse r).isPending = false
        ∧ (endResponse r).written.length = r.written.length + 1)
    ∧ (r.isPending = true → r.implicitEnd = false → endResponse r = r) := by
  refine ⟨?_, ?_, ?_⟩
  · intro hp
    have h1 : endResponse r = r := by simp [endResponse, hp]
    exact ⟨h1, by rw [h1, h1]⟩
  · intro hp hi
    simp [endResponse, hp, hi, endR]
  · intro hp hi
    simp [endResponse, hp, hi]

/-- C9 witness: the amended statement at an ended response and at a fresh
pending response with implicit end on. -/
theorem c9_witness :
    endResponse endedResponse = endedResponse
    ∧ endResponse (endResponse endedResponse) = endedResponse
    ∧ (endResponse pendingResponse).isPending = false
    ∧ (endResponse pendingResponse).written.length = pendingResponse.written.length + 1 :=
  ⟨((c9_amended_finalization endedResponse).1 rfl).1,
   ((c9_amended_finalization endedResponse).1 rfl).2,
   ((c9_amended_finalization pendingResponse).2.1 rfl rfl).1,
   ((c9_amended_finalization pendingResponse).2.1 rfl rfl).2⟩

/-! Helper lemmas about the configuration heap, leading to C10. -/

/-- Assigning a field of one object leaves lookups of other addresses
unchanged. -/
theorem lookupObj_setEntries_ne (l : List (Addr × ObjFields)) (a x : Addr)
    (k : String) (v : JVal) (hx : x ≠ a) :
    lookupObj (setEntries l a k v) x = lookupObj l x := by
  induction l with
  | nil => rfl
  | cons e rest ih =>
    by_cases he : e.1 = a
    · simp [setEntries, he, lookupObj, Ne.symm hx, ih]
    · by_cases hex : e.1 = x
      · simp [setEntries, he, lookupObj, hex, hx]
      · simp [setEntries, he, lookupObj, hex, ih]

/-- Assigning a field updates the object's own field list. -/
theorem lookupObj_setEntries_self (l : List (Addr × ObjFields)) (a : Addr)
    (k : String) (v : JVal) :
    lookupObj (setEntries l a k v) a = (lookupObj l a).map (fun f => setFields f k v) := by
  induction l with
  | nil => rfl
  | cons e rest ih =>
    by_cases he : e.1 = a
    · simp [setEntries, he, lookupObj]
    · simp [setEntries, he, lookupObj, ih]

/-- Reading back a just-assigned field. -/
theorem getField_setFields_self (flds : ObjFields) (k : String) (v : JVal) :
    getField (setFields flds k v) k = v := by
  induction flds with
  | nil => simp [setFields, getField]
  | cons kv rest ih =>
    by_cases hk : kv.1 = k
    · simp [setFields, hk, getField]
    · simp [setFields, hk, getField, ih]

/-- A field read that yields a reference exhibits that reference among the
object's fields. -/
theorem getField_ref_mem (flds : ObjFields) (k : String) (b : Addr)
    (h : getField flds k = .ref b) : ∃ k2, (k2, JVal.ref b) ∈ flds := by
  induction flds with
  | nil => simp [getField] at h
  | cons kv rest ih =>
    by_cases hk : kv.1 = k
    · refine ⟨kv.1, ?_⟩
      simp [getField, hk] at h
      rw [← h]
      exact List.mem_cons_self _ _
    · simp [getField, hk] at h
      obtain ⟨k2, hm⟩ := ih h
      exact ⟨k2, List.mem_cons_of_mem _ hm⟩

/-- A successful lookup exhibits its entry. -/
theorem lookupObj_mem (l : List (Addr × ObjFields)) (a : Addr) (f : ObjFields)
    (h : lookupObj l a = some f) : (a, f) ∈ l := by
  induction l with
  | nil => simp [lookupObj] at h
  | cons e rest ih =>
    by_cases he : e.1 = a
    · simp [lookupObj, he] at h
      rw [← h, ← he]
      exact List.mem_cons_self _ _
    · simp [lookupObj, he] at h
      exact List.mem_cons_of_mem _ (ih h)

/-- On a well-formed heap, every reference read out of a live object is bounded
by `next` and points to a live object. -/
theorem heapWF_ref (h : Heap) (hwf : heapWF h = true) (a : Addr) (flds : ObjFields)
    (hfind : h.find a = some flds) (k : String) (b : Addr)
    (hg : getField flds k = .ref b) :
    b < h.next ∧ (h.find b).isSome = true := by
  have hmem := lookupObj_mem h.objs a flds hfind
  obtain ⟨k2, hkv⟩ := getField_ref_mem flds k b hg
  unfold heapWF at hwf
  rw [List.all_eq_true] at hwf
  have h1 := hwf (a, flds) hmem
  rw [Bool.and_eq_true] at h1
  have h2 := h1.2
  rw [List.all_eq_true] at h2
  have h3 := h2 (k2, .ref b) hkv
  rw [Bool.and_eq_true] at h3
  constructor
  · have h4 := h3.1
    simp [valBound] at h4
    exact h4
  · have h4 := h3.2
    simp [valLive] at h4
    simp [Heap.find]
    exact h4

/-- Allocation does not change lookups of existing addresses. -/
theorem find_allocHeap_ne (h : Heap) (flds : ObjFields) (a : Addr)
    (ha : a ≠ h.next) : (allocHeap h flds).find a = h.find a := by
  simp [allocHeap, Heap.find, lookupObj, Ne.symm ha]

/-- Allocation does not change field reads of existing addresses. -/
theorem getF_allocHeap_ne (h : Heap) (flds : ObjFields) (a : Addr) (k : String)
    (ha : a ≠ h.next) : getF (allocHeap h flds) a k = getF h a k := by
  simp [getF, find_allocHeap_ne h flds a ha]

/-- A field assignment does not change lookups of other addresses. -/
theorem find_setField_ne (h : Heap) (a x : Addr) (k : String) (v : JVal)
    (hx : x ≠ a) : (h.setField a k v).find x = h.find x := by
  simp [Heap.setField, Heap.find, lookupObj_setEntries_ne h.objs a x k v hx]

/-- A field assignment updates the assigned object's field list. -/
theorem find_setField_self (h : Heap) (a : Addr) (k : String) (v : JVal) :
    (h.setField a k v).find a = (h.find a).map (fun f => setFields f k v) := by
  simp [Heap.setField, Heap.find, lookupObj_setEntries_self]

/-- A field assignment does not change field reads of other addresses. -/
theorem getF_setField_ne (h : Heap) (a x : Addr) (k : String) (v : JVal)
    (k2 : String) (hx : x ≠ a) :
    getF (h.setField a k v) x k2 = getF h x k2 := by
  simp [getF, find_setField_ne h a x k v hx]

/-- Allocation preserves liveness. -/
theorem find_isSome_allocHeap (h : Heap) (flds : ObjFields) (x : Addr)
    (hx : (h.find x).isSome = true) :
    ((allocHeap h flds).find x).isSome = true := by
  by_cases hxn : x = h.next
  · subst hxn
    simp [allocHeap, Heap.find, lookupObj]
  · rw [find_allocHeap_ne h flds x hxn]
    exact hx

/-- Field assignment preserves liveness. -/
theorem find_isSome_setField (h : Heap) (a : Addr) (k : String) (v : JVal)
    (x : Addr) (hx : (h.find x).isSome = true) :
    ((h.setField a k v).find x).isSome = true := by
  by_cases hxa : x = a
  · subst hxa
    rw [find_setField_self]
    cases hfx : h.find x with
    | none => rw [hfx] at hx; simp at hx
    | some f => simp [hfx]
  · rw [find_setField_ne h a x k v hxa]
    exact hx

/-- One-step unfolding of a single-segment walk. -/
theorem walkOwner_single (h : Heap) (a : Addr) (k : String) :
    walkOwner h a [k] = if (h.find a).isSome then some ([], a, k) else none := rfl

/-- One-step unfolding of a multi-segment walk. -/
theorem walkOwner_cons_cons (h : Heap) (a : Addr) (k k2 : String) (r2 : List String) :
    walkOwner h a (k :: k2 :: r2)
      = match getF h a k with
        | .ref b => (walkOwner h b (k2 :: r2)).map (fun x => (a :: x.1, x.2))
        | _ => none := rfl

/-- One-step unfolding of a single-segment read. -/
theorem pathGet_single (h : Heap) (a : Addr) (k : String) :
    pathGet h a [k] = getF h a k := rfl

/-- One-step unfolding of a multi-segment read. -/
theorem pathGet_cons_cons (h : Heap) (a : Addr) (k k2 : String) (r2 : List String) :
    pathGet h a (k :: k2 :: r2)
      = match getF h a k with
        | .ref b => pathGet h b (k2 :: r2)
        | _ => .undefV := rfl

/-- One-step unfolding of a single-segment write. -/
theorem pathSet_single (h : Heap) (a : Addr) (k : String) (v : JVal) :
    pathSet h a [k] v = h.setField a k v := rfl

/-- One-step unfolding of a multi-segment write. -/
theorem pathSet_cons_cons (h : Heap) (a : Addr) (k k2 : String) (r2 : List String)
    (v : JVal) :
    pathSet h a (k :: k2 :: r2) v
      = match getF h a k with
        | .ref b => pathSet h b (k2 :: r2) v
        | _ => pathSet ((allocHeap h []).setField a k (.ref h.next)) h.next (k2 :: r2) v :=
  rfl

/-- On a well-formed heap, an allocation does not change any resolving walk
started below `next`. -/
theorem walkOwner_allocHeap (h : Heap) (flds : ObjFields) (hwf : heapWF h = true) :
    ∀ (p : List String) (a : Addr), a < h.next →
      walkOwner (allocHeap h flds) a p = walkOwner h a p := by
  intro p
  induction p with
  | nil => intro a _; rfl
  | cons k rest ih =>
    intro a ha
    have hne : a ≠ h.next := Nat.ne_of_lt ha
    cases rest with
    | nil => simp [walkOwner_single, find_allocHeap_ne h flds a hne]
    | cons k2 r2 =>
      rw [walkOwner_cons_cons, walkOwner_cons_cons,
        getF_allocHeap_ne h flds a k hne]
      cases hg : getF h a k with
      | ref b =>
        have hb : b < h.next := by
          unfold getF at hg
          cases hf : h.find a with
          | none => rw [hf] at hg; simp at hg
          | some fl =>
            rw [hf] at hg
            exact (heapWF_ref h hwf a fl hf k b hg).1
        simp only [ih b hb]
      | undefV => rfl
      | num n => rfl
      | str s => rfl
      | boolV b => rfl

/-- When the walk resolves, lodash `_.set` is exactly a field assignment on the
owning object. -/
theorem pathSet_owner (v : JVal) :
    ∀ (p : List String) (h : Heap) (a : Addr) (vs : List Addr) (o : Addr)
      (kl : String), walkOwner h a p = some (vs, o, kl) →
      pathSet h a p v = h.setField o kl v := by
  intro p
  induction p with
  | nil =>
    intro h a vs o kl hw
    simp [walkOwner] at hw
  | cons k rest ih =>
    intro h a vs o kl hw
    cases rest with
    | nil =>
      cases hfind : h.find a with
      | none => simp [walkOwner_single, hfind] at hw
      | some fl =>
        simp [walkOwner_single, hfind] at hw
        obtain ⟨hvs, ho, hkl⟩ := hw
        rw [← ho, ← hkl]
        rfl
    | cons k2 r2 =>
      cases hg : getF h a k with
      | ref b =>
        simp only [walkOwner_cons_cons, hg] at hw
        rw [Option.map_eq_some'] at hw
        obtain ⟨⟨x1, x2, x3⟩, hx, hfx⟩ := hw
        have hx2 : x2 = o := by
          have h5 := congrArg (fun q => q.2.1) hfx
          simpa using h5
        have hx3 : x3 = kl := by
          have h5 := congrArg (fun q => q.2.2) hfx
          simpa using h5
        simp only [pathSet_cons_cons, hg]
        rw [← hx2, ← hx3]
        exact ih h b x1 x2 x3 hx
      | undefV => simp [walkOwner_cons_cons, hg] at hw
      | num n => simp [walkOwner_cons_cons, hg] at hw
      | str s => simp [walkOwner_cons_cons, hg] at hw
      | boolV bb => simp [walkOwner_cons_cons, hg] at hw

/-- Writing through the owner found by a resolving walk that does not revisit
the owner, then reading the same path back, yields the written value. -/
theorem pathGet_setField_walk (v : JVal) :
    ∀ (p : List String) (h : Heap) (a : Addr) (vs : List Addr) (o : Addr)
      (kl : String), walkOwner h a p = some (vs, o, kl) → o ∉ vs →
      pathGet (h.setField o kl v) a p = v := by
  intro p
  induction p with
  | nil =>
    intro h a vs o kl hw _
    simp [walkOwner] at hw
  | cons k rest ih =>
    intro h a vs o kl hw ho
    cases rest with
    | nil =>
      cases hfind : h.find a with
      | none => simp [walkOwner_single, hfind] at hw
      | some fl =>
        simp [walkOwner_single, hfind] at hw
        obtain ⟨hvs, hoa, hkl⟩ := hw
        rw [← hoa, ← hkl]
        simp [pathGet_single, getF, find_setField_self, hfind,
          getField_setFields_self]
    | cons k2 r2 =>
      cases hg : getF h a k with
      | ref b =>
        simp only [walkOwner_cons_cons, hg] at hw
        rw [Option.map_eq_some'] at hw
        obtain ⟨⟨x1, x2, x3⟩, hx, hfx⟩ := hw
        have hx1 : a :: x1 = vs := by
          have h5 := congrArg (fun q => q.1) hfx
          simpa using h5
        have hx2 : x2 = o := by
          have h5 := congrArg (fun q => q.2.1) hfx
          simpa using h5
        have hx3 : x3 = kl := by
          have h5 := congrArg (fun q => q.2.2) hfx
          simpa using h5
        rw [← hx1] at ho
        rw [List.mem_cons] at ho
        push_neg at ho
        have hoa : a ≠ o := fun hh => ho.1 hh.symm
        simp only [pathGet_cons_cons, getF_setField_ne h o a kl v k hoa, hg]
        rw [← hx2] at ho
        rw [← hx2, ← hx3]
        exact ih h b x1 x2 x3 hx ho.2
      | undefV => simp [walkOwner_cons_cons, hg] at hw
      | num n => simp [walkOwner_cons_cons, hg] at hw
      | str s => simp [walkOwner_cons_cons, hg] at hw
      | boolV bb => simp [walkOwner_cons_cons, hg] at hw

/-- Reads from a root that never reaches address `n` are unaffected by any heap
change confined to `n`. -/
theorem pathGet_mod_at :
    ∀ (p : List String) (h1 h2 : Heap) (n : Addr),
      (∀ x, x ≠ n → h2.find x = h1.find x) →
      (∀ x flds k b, x ≠ n → h1.find x = some flds → getField flds k = .ref b → b ≠ n) →
      ∀ a, a ≠ n → pathGet h2 a p = pathGet h1 a p := by
  intro p
  induction p with
  | nil => intros; rfl
  | cons k rest ih =>
    intro h1 h2 n hfind href a ha
    cases rest with
    | nil => simp [pathGet, getF, hfind a ha]
    | cons k2 r2 =>
      have hg : getF h2 a k = getF h1 a k := by simp [getF, hfind a ha]
      simp only [pathGet]
      rw [hg]
      cases hgf : getF h1 a k with
      | ref b =>
        have hb : b ≠ n := by
          unfold getF at hgf
          cases hf : h1.find a with
          | none => rw [hf] at hgf; simp at hgf
          | some fl =>
            rw [hf] at hgf
            exact href a fl k b ha hf hgf
        exact ih h1 h2 n hfind href b hb
      | undefV => rfl
      | num m => rfl
      | str s => rfl
      | boolV bb => rfl

/-- `Config.get` either leaves the heap alone (a primitive was read) or
extends it by one fresh clone container. -/
theorem get_heap_shape (c : ConfigStore) (key : List String) (d : JVal) :
    (c.get key d).2.heap = c.heap
    ∨ ∃ flds, (c.get key d).2.heap = allocHeap c.heap flds := by
  cases hv : (if pathGet c.heap c.root key = JVal.undefV then d
      else pathGet c.heap c.root key) with
  | ref a =>
    right
    exact ⟨(c.heap.find a).getD [], by simp [ConfigStore.get, cloneVal, hv]⟩
  | undefV => left; simp [ConfigStore.get, cloneVal, hv]
  | num n => left; simp [ConfigStore.get, cloneVal, hv]
  | str s => left; simp [ConfigStore.get, cloneVal, hv]
  | boolV b => left; simp [ConfigStore.get, cloneVal, hv]

/-- C10 counterexample: `Config.get` does hand out a reference into the store.
On the store `{a: {b: {x: 1}}}`, `get("a")` returns a fresh container whose
field `b` is the very object the store reaches as `a.b`; assigning `x` through
the returned value changes what a later `Config.get("a.b.x")` reads. -/
theorem c10_counterexample :
    (configFixture.get ["a"] .undefV).1 = .ref 3
    ∧ getF ((configFixture.get ["a"] .undefV).2.heap) 3 "b" = .ref 2
    ∧ pathGet ((configFixture.get ["a"] .undefV).2.heap) 0 ["a", "b"] = .ref 2
    ∧ pathGet ((configFixture.get ["a"] .undefV).2.heap) 0 ["a", "b", "x"] = .num 1
    ∧ ((ConfigStore.mk (((configFixture.get ["a"] .undefV).2.heap).setField 2 "x" (.num 2))
          0).get ["a", "b", "x"] .undefV).1 = .num 2 := by
  decide

/-- C10 (amended): `Config.get` returns a shallow clone — the top-level
container is fresh, so replacing or reassigning top-level properties of a
returned object leaves every read of the store unchanged, and a `Config.get`
following a `Config.set` returns a value whose top level equals the recorded
one (primitives identically; objects as a fresh container with the stored
object's field list) — but nested objects are shared by reference with the
store. Hypotheses: a well-formed heap, and a key whose `_.set` walk resolves
without revisiting the owning object. -/
theorem c10_amended (c : ConfigStore) (key : List String) (vs : List Addr)
    (o : Addr) (kl : String) (v : JVal)
    (hwf : heapWF c.heap = true) (hroot : c.root < c.heap.next)
    (hw : walkOwner c.heap c.root key = some (vs, o, kl)) (ho : o ∉ vs)
    (hvb : valBound c.heap.next v = true) (hvl : valLive c.heap.objs v = true) :
    (∀ a, (c.get key .undefV).1 = .ref a →
      a = c.heap.next
      ∧ ∀ k2 w p, pathGet (((c.get key .undefV).2.heap).setField a k2 w) c.root p
          = pathGet ((c.get key .undefV).2.heap) c.root p)
    ∧ pathGet (c.set key v).heap c.root key = v
    ∧ (JVal.isRef v = false → ((c.set key v).get key .undefV).1 = v)
    ∧ (∀ b2, v = .ref b2 →
        ∃ flds, (c.set key v).heap.find b2 = some flds
          ∧ ((c.set key v).get key .undefV).1 = .ref ((c.set key v).heap.next)
          ∧ ((c.set key v).get key .undefV).2.heap.find ((c.set key v).heap.next)
            = some flds) := by
  have hrootg : (c.get key .undefV).2.root = c.root := rfl
  have hsroot : (c.set key v).root = c.root := rfl
  have hshape := get_heap_shape c key .undefV
  have hwalk1 : walkOwner (c.get key .undefV).2.heap c.root key = some (vs, o, kl) := by
    rcases hshape with hsh | ⟨flds0, hsh⟩
    · rw [hsh]; exact hw
    · rw [hsh, walkOwner_allocHeap c.heap flds0 hwf key c.root hroot]; exact hw
  have hset : (c.set key v).heap = ((c.get key .undefV).2.heap).setField o kl v := by
    show pathSet (c.get key .undefV).2.heap (c.get key .undefV).2.root key v = _
    rw [hrootg]
    exact pathSet_owner v key (c.get key .undefV).2.heap c.root vs o kl hwalk1
  have hB1 : pathGet (c.set key v).heap c.root key = v := by
    rw [hset]
    exact pathGet_setField_walk v key (c.get key .undefV).2.heap c.root vs o kl hwalk1 ho
  refine ⟨?_, hB1, ?_, ?_⟩
  · intro a hga
    cases hv : (if pathGet c.heap c.root key = JVal.undefV then JVal.undefV
        else pathGet c.heap c.root key) with
    | ref r =>
      have h1 : (c.get key .undefV).1 = .ref c.heap.next := by
        simp [ConfigStore.get, cloneVal, hv]
      have h2 : (c.get key .undefV).2.heap
          = allocHeap c.heap ((c.heap.find r).getD []) := by
        simp [ConfigStore.get, cloneVal, hv]
      have h3 := hga.symm.trans h1
      have ha : a = c.heap.next := by injection h3
      refine ⟨ha, ?_⟩
      intro k2 w p
      subst ha
      rw [h2]
      refine pathGet_mod_at p (allocHeap c.heap ((c.heap.find r).getD []))
        ((allocHeap c.heap ((c.heap.find r).getD [])).setField c.heap.next k2 w)
        c.heap.next (fun x hx => find_setField_ne _ _ x k2 w hx) ?_ c.root
        (Nat.ne_of_lt hroot)
      intro x flds k3 b hx hfindx hgf
      rw [find_allocHeap_ne c.heap _ x hx] at hfindx
      exact Nat.ne_of_lt (heapWF_ref c.heap hwf x flds hfindx k3 b hgf).1
    | undefV =>
      have h1 : (c.get key .undefV).1 = JVal.undefV := by
        simp [ConfigStore.get, cloneVal, hv]
      exact absurd (hga.symm.trans h1) (by simp)
    | num n =>
      have h1 : (c.get key .undefV).1 = JVal.num n := by
        simp [ConfigStore.get, cloneVal, hv]
      exact absurd (hga.symm.trans h1) (by simp)
    | str s =>
      have h1 : (c.get key .undefV).1 = JVal.str s := by
        simp [ConfigStore.get, cloneVal, hv]
      exact absurd (hga.symm.trans h1) (by simp)
    | boolV b =>
      have h1 : (c.get key .undefV).1 = JVal.boolV b := by
        simp [ConfigStore.get, cloneVal, hv]
      exact absurd (hga.symm.trans h1) (by simp)
  · intro hnr
    have hraw : pathGet (c.set key v).heap (c.set key v).root key = v := by
      rw [hsroot]; exact hB1
    cases v with
    | ref b2 => simp [JVal.isRef] at hnr
    | undefV => simp [ConfigStore.get, cloneVal, hraw]
    | num n => simp [ConfigStore.get, cloneVal, hraw]
    | str s => simp [ConfigStore.get, cloneVal, hraw]
    | boolV b => simp [ConfigStore.get, cloneVal, hraw]
  · intro b2 hveq
    subst hveq
    have hlive0 : (c.heap.find b2).isSome = true := by
      have h5 := hvl
      simp [valLive] at h5
      simpa [Heap.find] using h5
    have hlive1 : ((c.get key .undefV).2.heap.find b2).isSome = true := by
      rcases hshape with hsh | ⟨flds0, hsh⟩
      · rw [hsh]; exact hlive0
      · rw [hsh]; exact find_isSome_allocHeap c.heap flds0 b2 hlive0
    have hlive2 : ((c.set key (.ref b2)).heap.find b2).isSome = true := by
      rw [hset]
      exact find_isSome_setField _ o kl _ b2 hlive1
    obtain ⟨flds, hflds⟩ := Option.isSome_iff_exists.mp hlive2
    have hraw : pathGet (c.set key (.ref b2)).heap (c.set key (.ref b2)).root key
        = JVal.ref b2 := by
      rw [hsroot]; exact hB1
    refine ⟨flds, hflds, ?_, ?_⟩
    · simp [ConfigStore.get, cloneVal, hraw]
    · have hflds2 : lookupObj (c.set key (.ref b2)).heap.objs b2 = some flds := hflds
      simp [ConfigStore.get, cloneVal, hraw, allocHeap, Heap.find, lookupObj, hflds2]

/-- C10 amended witness: the amended statement on the store `{a: {b: {x: 1}}}`
at key `a`: set-then-get roundtrip for a primitive, and invisibility of
top-level writes on the returned clone. -/
theorem c10_witness :
    pathGet (configFixture.set ["a"] (.num 5)).heap configFixture.root ["a"] = .num 5
    ∧ ((configFixture.set ["a"] (.num 5)).get ["a"] .undefV).1 = .num 5
    ∧ pathGet (((configFixture.get ["a"] .undefV).2.heap).setField 3 "b" (.num 9))
        configFixture.root ["a", "b", "x"]
      = pathGet ((configFixture.get ["a"] .undefV).2.heap) configFixture.root
          ["a", "b", "x"] :=
  ⟨(c10_amended configFixture ["a"] [] 0 "a" (.num 5) (by decide) (by decide)
      (by decide) (by decide) (by decide) (by decide)).2.1,
   (c10_amended configFixture ["a"] [] 0 "a" (.num 5) (by decide) (by decide)
      (by decide) (by decide) (by decide) (by decide)).2.2.1 rfl,
   ((c10_amended configFixture ["a"] [] 0 "a" (.num 5) (by decide) (by decide)
      (by decide) (by decide) (by decide) (by decide)).1 3 (by decide)).2 "b"
     (.num 9) ["a", "b", "x"]⟩

end Adonis
